import Mathlib

/-!
Shallow embedding of `lab_6_pipeline/pipeline.py` (a CONLL-U preparation
pipeline) and proofs about the claims of its specification.

Modelling conventions:
* A Python `str` is modelled as its sequence of Unicode code points,
  `List Nat` (the helper `cp` converts a Lean string literal).
* Python's `str.lower()` is modelled for the alphabets the repository works
  with (ASCII Latin and Cyrillic, including Ё); other code points are left
  unchanged, which agrees with Python on every character the pipeline and
  spec mention.
* The corpus directory is modelled as its listing: a `List DirEntry`, each
  entry being either a metadata file `<id>_meta.json` or a raw file
  `<id>_raw.txt` with a content; `st_size = 0` corresponds to an empty
  content.  The path itself is assumed to exist, be a directory and contain
  no underscore, so that `str(file).split('_')[0][-1]` is the last decimal
  digit of the id.
* Collaborators from `core_utils` (not part of this repository's source) are
  modelled from the spec where needed and documented as such.
-/

set_option autoImplicit false

/-- Code points of a Lean string literal; used for concrete Python strings. -/
def cp (s : String) : List Nat := s.toList.map Char.toNat

/-- Code points of `string.punctuation + '«»—%'` from
`ConlluToken.get_cleaned` (lines 124-125): the 32 ASCII punctuation
characters followed by « (171), » (187), — (8212) and % (37, a duplicate of
the ASCII occurrence, kept to mirror the concatenation). -/
def punctCps : List Nat :=
  [33, 34, 35, 36, 37, 38, 39, 40, 41, 42, 43, 44, 45, 46, 47,
   58, 59, 60, 61, 62, 63, 64, 91, 92, 93, 94, 95, 96, 123, 124, 125, 126,
   171, 187, 8212, 37]

/-- Membership of a code point in the removal table of `str.maketrans`. -/
def isPunct (c : Nat) : Bool := punctCps.contains c

/-- Python's `str.lower()`, character-wise, modelled for ASCII Latin
(65-90 → +32), Cyrillic А-Я (1040-1071 → +32) and Ё (1025 → 1105); every
other code point is left unchanged. -/
def pyLower (c : Nat) : Nat :=
  if 65 ≤ c ∧ c ≤ 90 then c + 32
  else if 1040 ≤ c ∧ c ≤ 1071 then c + 32
  else if c = 1025 then 1105
  else c

/-- The cleaning transformation of `ConlluToken.get_cleaned` (lines
124-125): `text.translate(str.maketrans('', '', string.punctuation +
'«»—%')).lower()` — first delete every punctuation code point, then
lower-case the remainder. -/
def cleanCps (s : List Nat) : List Nat :=
  (s.filter (fun c => !isPunct c)).map pyLower

/-- The cleaning transformation as the spec words it (§4.2): "strip ASCII
punctuation plus «»—% and lower-case" — here written with the two stages in
the opposite order to the code, lower-casing the text and stripping every
punctuation code point from the result. -/
def cleanedSpecCps (s : List Nat) : List Nat :=
  (s.map pyLower).filter (fun c => !isPunct c)

/-- `MorphologicalTokenDTO` (lines 83-91): its `__init__` body is empty, so
an instance stores nothing — the `lemma`, `pos` and `tags` arguments are
discarded. -/
structure MorphologicalTokenDTO where
  deriving DecidableEq, Repr

/-- `ConlluToken` (lines 94-125): `__init__` stores only `self._text`; no
morphological slot exists on the object. -/
structure ConlluToken where
  text : List Nat
  deriving DecidableEq, Repr

/-- `ConlluToken.set_morphological_parameters` (lines 105-108): the body is
only a docstring, so the call has no effect on the token. -/
def ConlluToken.set_morphological_parameters
    (t : ConlluToken) (_parameters : MorphologicalTokenDTO) : ConlluToken :=
  t

/-- `ConlluToken.get_morphological_parameters` (lines 110-113): the body is
only a docstring, so the call returns Python `None` (here `none`), never a
`MorphologicalTokenDTO`. -/
def ConlluToken.get_morphological_parameters
    (_t : ConlluToken) : Option MorphologicalTokenDTO :=
  none

/-- `ConlluToken.get_cleaned` (lines 120-125). -/
def ConlluToken.get_cleaned (t : ConlluToken) : List Nat :=
  cleanCps t.text

/-- `ConlluSentence` (lines 128-139): a position, the original sentence text
and the ordered token list. -/
structure ConlluSentence where
  position : Nat
  text : List Nat
  tokens : List ConlluToken
  deriving DecidableEq, Repr

/-- Python `sep.join(pieces)`. -/
def pyJoin (sep : List Nat) : List (List Nat) → List Nat
  | [] => []
  | [x] => x
  | x :: y :: rest => x ++ sep ++ pyJoin sep (y :: rest)

/-- `ConlluSentence.get_cleaned_sentence` (lines 146-150):
`' '.join(token.get_cleaned() for token in self._tokens if
token.get_cleaned())` — the cleaned tokens that are truthy (non-empty),
joined with single spaces. -/
def ConlluSentence.get_cleaned_sentence (s : ConlluSentence) : List Nat :=
  pyJoin [32] ((s.tokens.map ConlluToken.get_cleaned).filter (fun w => !w.isEmpty))

/-- `true` iff the string contains two consecutive space (32) code points. -/
def hasDoubleSpace : List Nat → Bool
  | a :: b :: rest => (a == 32 && b == 32) || hasDoubleSpace (b :: rest)
  | _ => false

/-- One entry of the corpus directory listing: either `<id>_meta.json`
(`isMeta = true`, matched by `glob('*.json')`) or `<id>_raw.txt`
(`isMeta = false`, matched by `glob('*_raw.txt')`), with its byte content;
`st_size == 0` corresponds to `content = []`. -/
structure DirEntry where
  id : Nat
  isMeta : Bool
  content : List Nat
  deriving DecidableEq, Repr

/-- The Python exceptions `CorpusManager.__init__` can raise. -/
inductive PyError where
  | indexError
  | inconsistentDatasetError
  | emptyDirectoryError
  deriving DecidableEq, Repr

/-- `int(str(file).split('_')[0][-1])` (line 54): the segment of the path
before the first underscore ends with the id's decimal representation, so
its last character is the id's last decimal digit. -/
def extractFileId (e : DirEntry) : Nat := e.id % 10

/-- Insertion sort used to model Python's `sorted`. -/
def insertSorted (x : Nat) : List Nat → List Nat
  | [] => [x]
  | y :: ys => if x ≤ y then x :: y :: ys else y :: insertSorted x ys

/-- Python's `sorted` on a list of naturals. -/
def pySorted (l : List Nat) : List Nat := l.foldr insertSorted []

/-- `raw_ids` (lines 54-55): the sorted last digits extracted from every
entry of `glob('*')` — metadata files included. -/
def sortedIds (dir : List DirEntry) : List Nat :=
  pySorted (dir.map extractFileId)

/-- Python slicing `l[::2]`: the elements at even indices. -/
def everySecond : List Nat → List Nat
  | [] => []
  | [x] => [x]
  | x :: _ :: rest => x :: everySecond rest

/-- `not self.path_to_raw_txt_data.iterdir()` (line 65): `iterdir()` is a
generator object, which is always truthy in Python, so the condition is
always `False` and `EmptyDirectoryError` on line 66 is unreachable. -/
def iterdirFalsyCheck (_dir : List DirEntry) : Bool := false

/-- `CorpusManager._validate_dataset` (lines 41-66) on the directory
listing, returning the exception raised, if any.  The path-existence and
is-directory checks (lines 45-49) precede this in the source and are part of
the modelling assumptions.  Note the source's quirks, kept faithfully:
`raw_ids[-1]` raises `IndexError` on an empty listing (line 56); the
zero-size loop (lines 61-63) iterates over the *pair of lists*
`meta_files, raw_files`, so `file[0]` inspects only the first file of each
list and raises `IndexError` when `meta_files` (then `raw_files`) is empty. -/
def CorpusManager.validate_dataset (dir : List DirEntry) : Option PyError :=
  let meta_files := dir.filter (fun e => e.isMeta)
  let raw_files := dir.filter (fun e => !e.isMeta)
  let raw_ids := sortedIds dir
  match raw_ids.getLast? with
  | none => some .indexError
  | some lastId =>
    let ids_order := List.range' 1 lastId
    if meta_files.length ≠ raw_files.length ∨ ids_order ≠ everySecond raw_ids then
      some .inconsistentDatasetError
    else
      match meta_files, raw_files with
      | [], _ => some .indexError
      | m :: _, [] =>
        if m.content.length = 0 then some .inconsistentDatasetError
        else some .indexError
      | m :: _, r :: _ =>
        if m.content.length = 0 then some .inconsistentDatasetError
        else if r.content.length = 0 then some .inconsistentDatasetError
        else if iterdirFalsyCheck dir then some .emptyDirectoryError
        else none

/-- `Article` from `core_utils.article.article`.  Modelled from the spec:
"has a numeric ID, raw text, and a mutable slot for the sequence of
annotated sentences".  The slot distinguishes "never written"
(`conllu = none`) from "written with the value `v`" (`conllu = some v`,
where `v` itself is `none` when the pipeline stored Python `None`). -/
structure Article where
  id : Nat
  text : List Nat
  conllu : Option (Option (List ConlluSentence))
  deriving DecidableEq, Repr

/-- `get_article_id_from_filepath` from `core_utils`.  Modelled from the
spec: "`get_article_id_from_filepath(path) -> int`", "article IDs are
derived from the numeric prefix embedded in the filename stem" — it returns
the full numeric id of the entry. -/
def get_article_id_from_filepath (e : DirEntry) : Nat := e.id

/-- `from_raw` from `core_utils.article.io`.  Modelled from the spec:
"`from_raw(path) -> Article`" constructs the Article for a raw file, with
the sentence slot untouched. -/
def from_raw (e : DirEntry) : Article :=
  { id := e.id, text := e.content, conllu := none }

/-- Python `dict` assignment `d[k] = v`: overwrite in place if the key is
present, else append preserving insertion order. -/
def dictInsert (d : List (Nat × Article)) (k : Nat) (v : Article) :
    List (Nat × Article) :=
  if d.any (fun kv => kv.1 == k) then
    d.map (fun kv => if kv.1 == k then (k, v) else kv)
  else d ++ [(k, v)]

/-- `CorpusManager._scan_dataset` (lines 68-74): for every `*_raw.txt`
entry, store `from_raw(file)` under `get_article_id_from_filepath(file)`. -/
def CorpusManager.scan_dataset (dir : List DirEntry) : List (Nat × Article) :=
  (dir.filter (fun e => !e.isMeta)).foldl
    (fun st e => dictInsert st (get_article_id_from_filepath e) (from_raw e)) []

/-- `CorpusManager.__init__` (lines 32-39): validate, then scan; the storage
is the article mapping. -/
def CorpusManager.construct (dir : List DirEntry) :
    Except PyError (List (Nat × Article)) :=
  match CorpusManager.validate_dataset dir with
  | some e => .error e
  | none => .ok (CorpusManager.scan_dataset dir)

/-- `CorpusManager.get_articles` (lines 76-80): returns the storage. -/
def CorpusManager.get_articles (storage : List (Nat × Article)) :
    List (Nat × Article) :=
  storage

/-- Whitespace test of Python `str.split()` (no arguments), modelled for the
ASCII whitespace characters. -/
def isSpaceCp (c : Nat) : Bool :=
  c == 32 || c == 9 || c == 10 || c == 13 || c == 11 || c == 12

/-- Accumulator recursion behind `pyWords`: split at whitespace, dropping
empty chunks, as Python's argumentless `str.split()` does. -/
def pyWordsAux : List Nat → List Nat → List (List Nat)
  | [], acc => if acc.isEmpty then [] else [acc.reverse]
  | c :: rest, acc =>
    if isSpaceCp c then
      if acc.isEmpty then pyWordsAux rest []
      else acc.reverse :: pyWordsAux rest []
    else pyWordsAux rest (c :: acc)

/-- Python `sentence.split()` (line 207): split on whitespace runs, with no
empty chunks. -/
def pyWords (s : List Nat) : List (List Nat) := pyWordsAux s []

/-- `MorphologicalAnalysisPipeline._process` (lines 201-208).  The
sentence-segmentation collaborator `split_by_sentence` from `core_utils` is
passed as the parameter `split`.  The source's `return` statement sits
*inside* the `for` loop, so the function returns during the first iteration
(with `idx = 0`) a singleton list holding only the first sentence, and
returns Python `None` (here `none`) when the loop body never runs. -/
def MorphologicalAnalysisPipeline.process
    (split : List Nat → List (List Nat)) (text : List Nat) :
    Option (List ConlluSentence) :=
  match split text with
  | [] => none
  | s :: _ =>
    some [{ position := 0, text := s, tokens := (pyWords s).map ConlluToken.mk }]

/-- `Article.set_conllu_sentences` from `core_utils`.  Modelled from the
spec: the article "has ... a mutable slot for the sequence of annotated
sentences.  Core only writes into this slot"; the written value is recorded
wholesale (it is Python `None` when `_process` returned `None`). -/
def Article.set_conllu_sentences (a : Article)
    (v : Option (List ConlluSentence)) : Article :=
  { a with conllu := some v }

/-- `MorphologicalAnalysisPipeline.run` (lines 210-216): for every article
of the storage, in order, write `_process(article.text)` into its sentence
slot and then call the collaborator writer `to_cleaned(article)`.  The first
component is the updated storage; the second lists the articles passed to
`to_cleaned`, in call order (`to_cleaned` itself lives in `core_utils`;
modelled from the spec as the request event "persist the cleaned form"). -/
def MorphologicalAnalysisPipeline.run (split : List Nat → List (List Nat)) :
    List (Nat × Article) → List (Nat × Article) × List Article
  | [] => ([], [])
  | (k, a) :: rest =>
    let a2 := a.set_conllu_sentences (MorphologicalAnalysisPipeline.process split a.text)
    let res := MorphologicalAnalysisPipeline.run split rest
    ((k, a2) :: res.1, a2 :: res.2)

/-- A corpus listing with the contiguous ids 1..10: ten metadata files and
ten raw files, all non-empty. -/
def dirTenArticles : List DirEntry :=
  (List.range' 1 10).map (fun i => ⟨i, true, cp "m"⟩) ++
    (List.range' 1 10).map (fun i => ⟨i, false, cp "r"⟩)

/-- A corpus listing with raw ids 1, 2, 13 and matching metadata files, all
non-empty: the ids 3..12 are missing from the middle of the range 1..13. -/
def dirGapThirteen : List DirEntry :=
  [⟨1, true, cp "m"⟩, ⟨2, true, cp "m"⟩, ⟨13, true, cp "m"⟩,
   ⟨1, false, cp "r"⟩, ⟨2, false, cp "r"⟩, ⟨13, false, cp "r"⟩]

/-- A corpus listing with ids 1, 2 where the *second* metadata file is zero
bytes and every other file is non-empty. -/
def dirSecondMetaEmpty : List DirEntry :=
  [⟨1, true, cp "m"⟩, ⟨2, true, []⟩,
   ⟨1, false, cp "r"⟩, ⟨2, false, cp "r"⟩]

example : cleanCps (cp "«Давайте»") = cp "давайте" := by decide

example : cleanCps (cp "дни.Майских") = cp "днимайских" := by decide

example :
    ConlluSentence.get_cleaned_sentence
      ⟨0, cp "А — Б", [⟨cp "А"⟩, ⟨cp "—"⟩, ⟨cp "Б"⟩]⟩ = cp "а б" := by
  decide

example :
    CorpusManager.construct
      [⟨1, true, cp "m"⟩, ⟨1, false, cp "r"⟩] =
    .ok [(1, ⟨1, cp "r", none⟩)] := rfl

example : pyWords (cp " в ближайшие  дни ") =
    [cp "в", cp "ближайшие", cp "дни"] := by decide

/-- No lower-case Latin letter is in the punctuation removal table. -/
theorem isPunct_false_of_lower_latin {x : Nat} (h1 : 97 ≤ x) (h2 : x ≤ 122) :
    isPunct x = false := by
  interval_cases x <;> decide

/-- No upper-case Latin letter is in the punctuation removal table. -/
theorem isPunct_false_of_upper_latin {x : Nat} (h1 : 65 ≤ x) (h2 : x ≤ 90) :
    isPunct x = false := by
  interval_cases x <;> decide

/-- No lower-case Cyrillic letter is in the punctuation removal table. -/
theorem isPunct_false_of_lower_cyr {x : Nat} (h1 : 1072 ≤ x) (h2 : x ≤ 1103) :
    isPunct x = false := by
  interval_cases x <;> decide

/-- No upper-case Cyrillic letter is in the punctuation removal table. -/
theorem isPunct_false_of_upper_cyr {x : Nat} (h1 : 1040 ≤ x) (h2 : x ≤ 1071) :
    isPunct x = false := by
  interval_cases x <;> decide

/-- Lower-casing is idempotent character-wise. -/
theorem pyLower_pyLower (c : Nat) : pyLower (pyLower c) = pyLower c := by
  simp only [pyLower]
  split_ifs <;> omega

/-- Lower-casing neither removes a character from the punctuation table nor
puts one into it. -/
theorem isPunct_pyLower (c : Nat) : isPunct (pyLower c) = isPunct c := by
  simp only [pyLower]
  split_ifs with h1 h2 h3
  · rw [isPunct_false_of_lower_latin (by omega) (by omega),
      isPunct_false_of_upper_latin (by omega) (by omega)]
  · rw [isPunct_false_of_lower_cyr (by omega) (by omega),
      isPunct_false_of_upper_cyr (by omega) (by omega)]
  · subst h3; decide
  · rfl

/-- Mapping and filtering commute when the predicate is invariant under the
mapped function. -/
theorem filter_map_of_invariant (f : Nat → Nat) (p : Nat → Bool)
    (hf : ∀ c, p (f c) = p c) :
    ∀ l : List Nat, (l.filter p).map f = (l.map f).filter p := by
  intro l
  induction l with
  | nil => rfl
  | cons a l ih =>
    by_cases h : p a
    · simp [List.filter_cons, h, hf a, ih]
    · simp only [Bool.not_eq_true] at h
      simp [List.filter_cons, h, hf a, ih]

/-- The cleaning transformation is idempotent. -/
theorem cleanCps_idem (s : List Nat) : cleanCps (cleanCps s) = cleanCps s := by
  have hp : ∀ c, (!isPunct (pyLower c)) = (!isPunct c) := by
    intro c; rw [isPunct_pyLower]
  simp only [cleanCps]
  rw [← filter_map_of_invariant pyLower _ hp (s.filter (fun c => !isPunct c)),
    List.filter_filter]
  have hfil :
      (s.filter (fun c => !isPunct c && !isPunct c)) =
        s.filter (fun c => !isPunct c) := by
    congr 1
    funext c
    cases isPunct c <;> rfl
  rw [hfil, List.map_map]
  exact List.map_congr_left (fun c _ => pyLower_pyLower c)

/-- C6: for every `ConlluToken`, `get_cleaned()` returns the surface text
with every code point of ASCII punctuation plus «»—% removed (not replaced
by a space) and the letters lower-cased, exactly as the spec words it
(`cleanedSpecCps`); in this embedding the function reads only the token's
text and cannot mutate the token, so it is pure. -/
theorem get_cleaned_strips_punct_and_lowers (t : ConlluToken) :
    ConlluToken.get_cleaned t = cleanedSpecCps t.text := by
  have hp : ∀ c, (!isPunct (pyLower c)) = (!isPunct c) := by
    intro c; rw [isPunct_pyLower]
  simp only [ConlluToken.get_cleaned, cleanCps, cleanedSpecCps]
  exact filter_map_of_invariant pyLower _ hp t.text

/-- C7: the cleaning transformation is idempotent — cleaning a
`ConlluToken` built from another token's `get_cleaned()` output returns
that output unchanged. -/
theorem get_cleaned_idempotent (t : ConlluToken) :
    ConlluToken.get_cleaned (ConlluToken.mk (ConlluToken.get_cleaned t)) =
      ConlluToken.get_cleaned t :=
  cleanCps_idem t.text

/-- A string without a space has no double space. -/
theorem hasDoubleSpace_eq_false_of_no_space :
    ∀ x : List Nat, 32 ∉ x → hasDoubleSpace x = false := by
  intro x
  induction x with
  | nil => intro _; rfl
  | cons a t ih =>
    intro h
    cases t with
    | nil => rfl
    | cons b t' =>
      have ha : (a == 32) = false := by
        have : a ≠ 32 := fun e => h (e ▸ List.mem_cons_self _ _)
        simpa using this
      have hrest : 32 ∉ b :: t' := fun m => h (List.mem_cons_of_mem _ m)
      simp only [hasDoubleSpace, ha, Bool.false_and, Bool.false_or]
      exact ih hrest

/-- Appending a single space and a tail that has no double space and does
not begin with a space to a non-empty space-free string produces no double
space. -/
theorem hasDoubleSpace_append_sep (J : List Nat)
    (hJ : hasDoubleSpace J = false) (hhd : ∀ t, J ≠ 32 :: t) :
    ∀ x : List Nat, x ≠ [] → 32 ∉ x →
      hasDoubleSpace (x ++ 32 :: J) = false := by
  intro x
  induction x with
  | nil => intro hx _; exact absurd rfl hx
  | cons a x' ih =>
    intro _ hmem
    have ha : (a == 32) = false := by
      have : a ≠ 32 := fun e => hmem (e ▸ List.mem_cons_self _ _)
      simpa using this
    cases x' with
    | nil =>
      cases J with
      | nil => simp [hasDoubleSpace, ha]
      | cons h t =>
        have hh : (h == 32) = false := by
          have : h ≠ 32 := fun e => hhd t (by rw [e])
          simpa using this
        simp only [List.cons_append, List.nil_append, hasDoubleSpace, ha, hh,
          Bool.false_and, Bool.and_false, Bool.false_or]
        exact hJ
    | cons b x'' =>
      have hmem' : 32 ∉ b :: x'' := fun m => hmem (List.mem_cons_of_mem _ m)
      simp only [List.cons_append, hasDoubleSpace, ha, Bool.false_and,
        Bool.false_or]
      exact ih (by simp) hmem'

/-- Joining non-empty space-free pieces with a single space yields a string
with no double space, which moreover does not begin with a space. -/
theorem pyJoin_single_spaces :
    ∀ ps : List (List Nat), (∀ x ∈ ps, x ≠ [] ∧ 32 ∉ x) →
      hasDoubleSpace (pyJoin [32] ps) = false ∧
        ∀ t, pyJoin [32] ps ≠ 32 :: t := by
  intro ps
  induction ps with
  | nil =>
    intro _
    exact ⟨rfl, by intro t h; simp [pyJoin] at h⟩
  | cons x ps ih =>
    intro h
    have hx := h x (List.mem_cons_self _ _)
    cases ps with
    | nil =>
      refine ⟨hasDoubleSpace_eq_false_of_no_space x hx.2, ?_⟩
      intro t e
      have : pyJoin [32] [x] = x := rfl
      rw [this] at e
      exact hx.2 (e ▸ List.mem_cons_self _ _)
    | cons y ps' =>
      have ih' := ih (fun z hz => h z (List.mem_cons_of_mem _ hz))
      have hj : pyJoin [32] (x :: y :: ps') =
          x ++ 32 :: pyJoin [32] (y :: ps') := by
        simp [pyJoin]
      rw [hj]
      constructor
      · exact hasDoubleSpace_append_sep _ ih'.1 ih'.2 x hx.1 hx.2
      · intro t e
        cases x with
        | nil => exact hx.1 rfl
        | cons c x'' =>
          have hc : c = 32 := by
            simpa using congrArg (fun l => l.head?) e
          exact hx.2 (hc ▸ List.mem_cons_self _ _)

/-- `run` writes `_process(article.text)` into every article's sentence
slot in storage order and passes each updated article to the cleaned-text
writer, in the same order. -/
theorem run_updates_and_requests (split : List Nat → List (List Nat)) :
    ∀ storage : List (Nat × Article),
      (MorphologicalAnalysisPipeline.run split storage).1 =
        storage.map (fun ka =>
          (ka.1, ka.2.set_conllu_sentences
            (MorphologicalAnalysisPipeline.process split ka.2.text))) ∧
      (MorphologicalAnalysisPipeline.run split storage).2 =
        storage.map (fun ka =>
          ka.2.set_conllu_sentences
            (MorphologicalAnalysisPipeline.process split ka.2.text)) := by
  intro storage
  induction storage with
  | nil => exact ⟨rfl, rfl⟩
  | cons ka rest ih =>
    simp only [MorphologicalAnalysisPipeline.run, List.map_cons]
    exact ⟨by rw [ih.1], by rw [ih.2]⟩

/-- C1 (code bug): on the valid contiguous corpus 1..10 — ten non-empty
raw files with ten non-empty metadata files — `CorpusManager` construction
raises `InconsistentDatasetError` instead of succeeding with ten articles,
because the id extraction `int(str(file).split('_')[0][-1])` (line 54)
keeps only the last decimal digit of each id, so the computed id sequence
is 0..9, not 1..10. -/
theorem corpus_ten_articles_rejected :
    CorpusManager.construct dirTenArticles =
      .error .inconsistentDatasetError := by
  rfl

/-- C3 (code bug): the corpus with raw ids 1, 2, 13 is missing every id
3..12 strictly inside the range 1..13, yet construction succeeds and
stores three articles, because the last-digit id extraction turns 13 into
3 and `[1,1,2,2,3,3][::2] = [1,2,3]` matches `range(1, 4)` (lines 54-58). -/
theorem corpus_gap_accepted :
    CorpusManager.construct dirGapThirteen =
      .ok [(1, ⟨1, cp "r", none⟩), (2, ⟨2, cp "r", none⟩),
           (13, ⟨13, cp "r", none⟩)] := by
  rfl

/-- C4 (code bug): on an empty directory, construction raises `IndexError`
from `raw_ids[-1]` (line 56), not `EmptyDirectoryError`: the
`EmptyDirectoryError` check (lines 65-66) is unreachable both because the
`IndexError` fires first and because `not iterdir()` is always `False`. -/
theorem corpus_empty_dir_index_error :
    CorpusManager.construct [] = .error .indexError := by
  rfl

/-- C5 counterexample: in the corpus with ids 1, 2 whose *second* metadata
file is zero bytes, validation succeeds — the zero-size loop (lines 61-63)
iterates over the pair `(meta_files, raw_files)` and inspects only
`meta_files[0]` and `raw_files[0]`, so the empty second file goes
unnoticed, contradicting the claim that any zero-byte file raises
`InconsistentDatasetError`. -/
theorem corpus_second_empty_file_accepted :
    CorpusManager.validate_dataset dirSecondMetaEmpty = none := by
  rfl

/-- C5 (amended): construction raises `InconsistentDatasetError` for a
zero-byte file only when that file is the *first* metadata file or the
*first* raw file of the directory listing (and the count and id checks
pass); zero-byte files elsewhere in the listing are not detected. -/
theorem validate_first_zero_byte_file (dir : List DirEntry)
    (m r : DirEntry) (ms rs : List DirEntry) (lastId : Nat)
    (hm : dir.filter (fun e => e.isMeta) = m :: ms)
    (hr : dir.filter (fun e => !e.isMeta) = r :: rs)
    (hlen : ms.length = rs.length)
    (hl : (sortedIds dir).getLast? = some lastId)
    (hids : List.range' 1 lastId = everySecond (sortedIds dir))
    (hempty : m.content = [] ∨ r.content = []) :
    CorpusManager.validate_dataset dir = some .inconsistentDatasetError := by
  simp only [CorpusManager.validate_dataset, hm, hr, hl]
  have hcond : ¬((m :: ms).length ≠ (r :: rs).length ∨
      List.range' 1 lastId ≠ everySecond (sortedIds dir)) := by
    push_neg
    exact ⟨by simp [hlen], hids⟩
  rw [if_neg hcond]
  rcases hempty with he | he
  · rw [if_pos (by simp [he])]
  · by_cases hm0 : m.content.length = 0
    · rw [if_pos hm0]
    · rw [if_neg hm0, if_pos (by simp [he])]

/-- C5 witness: a concrete two-file corpus whose single metadata file is
zero bytes is rejected with `InconsistentDatasetError`. -/
theorem validate_first_zero_byte_file_witness :
    CorpusManager.validate_dataset [⟨1, true, []⟩, ⟨1, false, cp "r"⟩] =
      some .inconsistentDatasetError :=
  validate_first_zero_byte_file _ ⟨1, true, []⟩ ⟨1, false, cp "r"⟩ [] [] 1
    rfl rfl rfl rfl rfl (Or.inl rfl)

/-- C2 counterexample: when the segmentation collaborator returns two
sentences, `_process` returns a list with a single `ConlluSentence` — the
first sentence only — because the `return` statement (line 208) sits inside
the `for` loop; the claim requires one `ConlluSentence` per sentence. -/
theorem process_first_sentence_only_counterexample :
    [cp "а б", cp "в"].length = 2 ∧
    MorphologicalAnalysisPipeline.process (fun _ => [cp "а б", cp "в"])
        (cp "а б. в") =
      some [⟨0, cp "а б", [⟨cp "а"⟩, ⟨cp "б"⟩]⟩] :=
  ⟨rfl, rfl⟩

/-- C2 (amended): when the segmentation collaborator returns at least one
sentence, `_process` returns a singleton list holding only the *first*
sentence at position 0, its tokens being the whitespace-delimited tokens of
that sentence wrapped as `ConlluToken` (which carry no morphological
annotation); `run` writes the `_process` result into every article's
sentence slot and requests the cleaned-text writer once per article, in
storage order. -/
theorem process_and_run_first_sentence
    (split : List Nat → List (List Nat)) (text s : List Nat)
    (rest : List (List Nat)) (h : split text = s :: rest)
    (storage : List (Nat × Article)) :
    MorphologicalAnalysisPipeline.process split text =
      some [⟨0, s, (pyWords s).map ConlluToken.mk⟩] ∧
    (MorphologicalAnalysisPipeline.run split storage).1 =
      storage.map (fun ka =>
        (ka.1, ka.2.set_conllu_sentences
          (MorphologicalAnalysisPipeline.process split ka.2.text))) ∧
    (MorphologicalAnalysisPipeline.run split storage).2 =
      storage.map (fun ka =>
        ka.2.set_conllu_sentences
          (MorphologicalAnalysisPipeline.process split ka.2.text)) := by
  refine ⟨?_, (run_updates_and_requests split storage).1,
    (run_updates_and_requests split storage).2⟩
  simp [MorphologicalAnalysisPipeline.process, h]

/-- C2 witness: on a one-sentence splitter, `_process` yields the tokenised
first sentence and `run` passes the updated article to the cleaned-text
writer. -/
theorem process_and_run_first_sentence_witness :
    MorphologicalAnalysisPipeline.process (fun _ => [cp "а б"]) (cp "а б") =
      some [⟨0, cp "а б", [⟨cp "а"⟩, ⟨cp "б"⟩]⟩] ∧
    (MorphologicalAnalysisPipeline.run (fun _ => [cp "а б"])
        [(1, ⟨1, cp "а б", none⟩)]).2 =
      [Article.set_conllu_sentences ⟨1, cp "а б", none⟩
        (MorphologicalAnalysisPipeline.process (fun _ => [cp "а б"])
          (cp "а б"))] :=
  ⟨(process_and_run_first_sentence (fun _ => [cp "а б"]) (cp "а б")
      (cp "а б") [] rfl []).1,
   (process_and_run_first_sentence (fun _ => [cp "а б"]) (cp "а б")
      (cp "а б") [] rfl [(1, ⟨1, cp "а б", none⟩)]).2.2⟩

/-- C8 counterexample: a `ConlluSentence` is free to hold a token whose
text contains two adjacent spaces; spaces are not in the punctuation
removal table, so the cleaned sentence contains two consecutive spaces,
contradicting the claim that it never does for any token list. -/
theorem cleaned_sentence_double_space_counterexample :
    hasDoubleSpace (ConlluSentence.get_cleaned_sentence
      ⟨0, cp "a  b", [⟨cp "a  b"⟩]⟩) = true := by
  decide

/-- C8 (amended): for every `ConlluSentence` whose tokens' cleaned forms
contain no space character (as is the case for whitespace-delimited
tokens), `get_cleaned_sentence()` equals the single-space join of the
non-empty cleaned forms of its tokens in order, and the result never
contains two consecutive spaces. -/
theorem cleaned_sentence_single_space_join (s : ConlluSentence)
    (h : ∀ tk ∈ s.tokens, 32 ∉ ConlluToken.get_cleaned tk) :
    ConlluSentence.get_cleaned_sentence s =
      pyJoin [32] ((s.tokens.map ConlluToken.get_cleaned).filter
        (fun w => !w.isEmpty)) ∧
    hasDoubleSpace (ConlluSentence.get_cleaned_sentence s) = false := by
  refine ⟨rfl, ?_⟩
  apply (pyJoin_single_spaces _ ?_).1
  intro x hx
  rw [List.mem_filter] at hx
  obtain ⟨hxm, hxe⟩ := hx
  obtain ⟨tk, htk, rfl⟩ := List.mem_map.mp hxm
  refine ⟨?_, h tk htk⟩
  intro hnil
  rw [hnil] at hxe
  simp at hxe

/-- C8 witness: a sentence with the tokens «А», — and Б — the middle token
cleans to the empty string and is skipped — joins to "а б" with no double
space. -/
theorem cleaned_sentence_single_space_join_witness :
    ConlluSentence.get_cleaned_sentence
        ⟨0, cp "«А» — Б", [⟨cp "«А»"⟩, ⟨cp "—"⟩, ⟨cp "Б"⟩]⟩ =
      pyJoin [32] (([(⟨cp "«А»"⟩ : ConlluToken), ⟨cp "—"⟩, ⟨cp "Б"⟩].map
        ConlluToken.get_cleaned).filter (fun w => !w.isEmpty)) ∧
    hasDoubleSpace (ConlluSentence.get_cleaned_sentence
      ⟨0, cp "«А» — Б", [⟨cp "«А»"⟩, ⟨cp "—"⟩, ⟨cp "Б"⟩]⟩) = false :=
  cleaned_sentence_single_space_join
    ⟨0, cp "«А» — Б", [⟨cp "«А»"⟩, ⟨cp "—"⟩, ⟨cp "Б"⟩]⟩ (by decide)

/-- C9 (code bug): both morphological-parameter methods of `ConlluToken`
are stubs — `set_morphological_parameters` leaves the token unchanged and
`get_morphological_parameters` returns Python `None`, never a
`MorphologicalTokenDTO`, whether or not a DTO was set before. -/
theorem morphological_parameters_stubbed (t : ConlluToken)
    (p : MorphologicalTokenDTO) :
    ConlluToken.set_morphological_parameters t p = t ∧
    ConlluToken.get_morphological_parameters t = none ∧
    ConlluToken.get_morphological_parameters
      (ConlluToken.set_morphological_parameters t p) = none :=
  ⟨rfl, rfl, rfl⟩

/-- C10: when the sentence-segmentation collaborator returns no sentences,
`_process` falls off its `for` loop without executing the body and returns
Python `None` (not an empty list). -/
theorem process_none_of_empty_split
    (split : List Nat → List (List Nat)) (text : List Nat)
    (h : split text = []) :
    MorphologicalAnalysisPipeline.process split text = none := by
  simp [MorphologicalAnalysisPipeline.process, h]

/-- C10 witness: a splitter returning no sentences makes `_process` return
`none`. -/
theorem process_none_of_empty_split_witness :
    MorphologicalAnalysisPipeline.process (fun _ => []) (cp "Текст.") =
      none :=
  process_none_of_empty_split (fun _ => []) (cp "Текст.") rfl

/-- C6 witness: cleaning the token «Давайте» removes the guillemets and
lower-cases the Cyrillic letters, matching the spec-worded transformation. -/
theorem get_cleaned_strips_punct_and_lowers_witness :
    ConlluToken.get_cleaned ⟨cp "«Давайте»"⟩ =
      cleanedSpecCps (cp "«Давайте»") :=
  get_cleaned_strips_punct_and_lowers ⟨cp "«Давайте»"⟩

/-- C7 witness: re-cleaning the already-cleaned form of "дни.Майских"
leaves it unchanged. -/
theorem get_cleaned_idempotent_witness :
    ConlluToken.get_cleaned
        (ConlluToken.mk (ConlluToken.get_cleaned ⟨cp "дни.Майских"⟩)) =
      ConlluToken.get_cleaned ⟨cp "дни.Майских"⟩ :=
  get_cleaned_idempotent ⟨cp "дни.Майских"⟩

/-- C9 witness: on a concrete token, setting a DTO has no effect and
getting the parameters yields `none`. -/
theorem morphological_parameters_stubbed_witness :
    ConlluToken.set_morphological_parameters ⟨cp "дни"⟩ ⟨⟩ = ⟨cp "дни"⟩ ∧
    ConlluToken.get_morphological_parameters ⟨cp "дни"⟩ = none ∧
    ConlluToken.get_morphological_parameters
      (ConlluToken.set_morphological_parameters ⟨cp "дни"⟩ ⟨⟩) = none :=
  morphological_parameters_stubbed ⟨cp "дни"⟩ ⟨⟩

